import Mathlib

/-!
Verification of the display-layer components of the AI-Team-Orchestrator
front end, as shallowly embedded Lean definitions.

Source files embedded here:
  - frontend/src/components/SmartAssetViewer.tsx
      (SmartValueRenderer, renderAssetContent, getAssetTypeInfo, tab dispatch)
  - the knowledge panel component (KnowledgeInsightsArtifact: formatDate,
    getConfidenceColor, section tabs, management-mode toggle)
  - frontend/src/components/ProjectTeamSection.tsx (formatPersonalityTraits)

JavaScript values flowing through these components are JSON-shaped; they are
modelled by the JsonValue type below.  JavaScript primitives used by the code
(String.prototype.replace with the underscore / hyphen / word-boundary
regexes, Object.entries, Array.isArray, JSON.stringify, the Date API) are
modelled by the js-prefixed helpers, each documented at its definition.
-/

set_option maxHeartbeats 1600000
set_option maxRecDepth 8192

/-- A JSON-shaped JavaScript value as seen by the components: null or
undefined, a string, a number, a boolean, an array, a plain object (an
ordered list of key-value entries, the order being the enumeration order of
Object.entries), or any other value (function, symbol, ...) identified by the
result of its default string conversion. -/
inductive JsonValue where
  | vNull
  | vStr (s : String)
  | vNum (q : Rat)
  | vBool (b : Bool)
  | vArr (items : List JsonValue)
  | vObj (entries : List (String × JsonValue))
  | vOther (srepr : String)
deriving Repr, BEq

/-- The render tree produced by SmartValueRenderer, one constructor per
branch of the component (SmartAssetViewer.tsx lines 188-262).  The
truncatedText constructor keeps the shown 200-character head and the total
character count; the source renders the head followed by an ellipsis and the
count note.  listRender keeps the item count, the shown items each tagged
with its 1-based position, and the optional count of hidden items; objRender
keeps the shown entries under their humanized key labels and the optional
count of hidden properties. -/
inductive Render where
  | nullMarker
  | text (s : String)
  | truncatedText (shown : String) (total : Nat)
  | primitive (s : String)
  | emptyList
  | listRender (count : Nat) (shown : List (Nat × Render)) (more : Option Nat)
  | emptyObject
  | objRender (shown : List (String × Render)) (more : Option Nat)
  | fallback (s : String)
deriving Repr, BEq

/-- Model of String.prototype.replace with a global single-character pattern:
every occurrence of the character old becomes the character new. -/
def jsReplaceAll (old new : Char) (s : String) : String :=
  String.mk (s.data.map fun c => if c = old then new else c)

/-- A word character in the sense of the regex class backslash-w:
letters, digits and the underscore. -/
def isJsWordChar (c : Char) : Bool :=
  c.isAlpha || c.isDigit || c = '_'

/-- Helper for the word-boundary capitalization regex: walks the character
list carrying whether the previous character was a word character; a word
character not preceded by one (a position matched by the boundary-plus-word
pattern) is upper-cased. -/
def capWordStartsAux : List Char → Bool → List Char
  | [], _ => []
  | c :: cs, prevWord =>
      (if isJsWordChar c && !prevWord then c.toUpper else c) ::
        capWordStartsAux cs (isJsWordChar c)

/-- Model of s.replace with the global word-boundary word-character pattern
and an upper-casing replacer: the first character of every word is
upper-cased. -/
def capitalizeWordStarts (s : String) : String :=
  String.mk (capWordStartsAux s.data false)

/-- Model of s.replace with the global underscore pattern and a space
replacement. -/
def underscoresToSpaces (s : String) : String :=
  jsReplaceAll '_' ' ' s

/-- The key-label humanization used for object keys in SmartAssetViewer.tsx
(lines 57 and 245) and for the asset name (lines 24-26): underscores become
spaces, then the first character of each word is upper-cased. -/
def humanizeKey (s : String) : String :=
  capitalizeWordStarts (underscoresToSpaces s)

/-- Attach the 1-based position tag to each rendered list item, as the
source derives the Item label from the map index plus one
(SmartAssetViewer.tsx line 220). -/
def tagPositions (rs : List Render) : List (Nat × Render) :=
  rs.enum.map fun p => (p.1 + 1, p.2)

/-- Model of s.substring(0, n): the first n characters of s (all of s when
it is shorter). -/
def jsSubstring0 (n : Nat) (s : String) : String :=
  String.mk (s.data.take n)

/-- The JavaScript string form of a boolean, as produced by String(value). -/
def jsBoolToString (b : Bool) : String :=
  if b then "true" else "false"

/-- The JavaScript string form of a number, as produced by String(value).
The exact JS float formatting is abstracted by the Rat printer; no claim
depends on the digits produced. -/
def jsNumToString (q : Rat) : String :=
  toString q

/-- SmartValueRenderer (SmartAssetViewer.tsx lines 188-262).  The branches
are taken in the order of the source guards: the null and undefined check,
the string check with the 200-character preview cut, the number and boolean
check, the Array.isArray check with the empty-list marker and the
first-5-items cut, the object check with the empty-object marker and the
first-3-entries cut under humanized key labels, and the final fallthrough to
the literal string conversion.  The constructor match is faithful to the
guard order because the constructor kinds are exactly the disjoint guard
classes, with null handled before the object branch. -/
def render : JsonValue → Render
  | .vNull => .nullMarker
  | .vStr s => if 200 < s.length then .truncatedText (jsSubstring0 200 s) s.length else .text s
  | .vNum q => .primitive (jsNumToString q)
  | .vBool b => .primitive (jsBoolToString b)
  | .vArr items =>
      if items.length = 0 then .emptyList
      else
        .listRender items.length
          (tagPositions ((items.take 5).attach.map fun ⟨a, ha⟩ => render a))
          (if 5 < items.length then some (items.length - 5) else none)
  | .vObj entries =>
      if entries.length = 0 then .emptyObject
      else
        .objRender
          ((entries.take 3).attach.map fun ⟨kv, hkv⟩ => (humanizeKey kv.1, render kv.2))
          (if 3 < entries.length then some (entries.length - 3) else none)
  | .vOther srepr => .fallback srepr
termination_by v => sizeOf v
decreasing_by
  · have h1 := List.sizeOf_lt_of_mem (List.mem_of_mem_take ha)
    simp only [JsonValue.vArr.sizeOf_spec]
    omega
  · have h1 := List.sizeOf_lt_of_mem (List.mem_of_mem_take hkv)
    have h3 : sizeOf kv.2 < sizeOf kv := by
      cases kv
      simp only [Prod.mk.sizeOf_spec]
      omega
    simp only [JsonValue.vObj.sizeOf_spec]
    omega

/-- Unfolding of the array branch of render without the termination
bookkeeping. -/
theorem render_arr (items : List JsonValue) :
    render (.vArr items) =
      if items.length = 0 then .emptyList
      else
        .listRender items.length
          (tagPositions ((items.take 5).map render))
          (if 5 < items.length then some (items.length - 5) else none) := by
  rw [render]
  simp [List.attach_map_coe]

/-- Unfolding of the object branch of render without the termination
bookkeeping. -/
theorem render_obj (entries : List (String × JsonValue)) :
    render (.vObj entries) =
      if entries.length = 0 then .emptyObject
      else
        .objRender
          ((entries.take 3).map fun kv => (humanizeKey kv.1, render kv.2))
          (if 3 < entries.length then some (entries.length - 3) else none) := by
  rw [render,
    List.attach_map_coe (List.take 3 entries) (fun kv => (humanizeKey kv.1, render kv.2))]

/-- Model of the JavaScript typeof operator on a JsonValue.  For vNull the
value object is the typeof of the JS null value; in every source guard the
null and undefined case is tested (by truthiness or an explicit equality
check) before typeof is consulted, so the conflation of null and undefined
inside vNull is never observable. -/
def jsTypeof : JsonValue → String
  | .vNull => "object"
  | .vStr _ => "string"
  | .vNum _ => "number"
  | .vBool _ => "boolean"
  | .vArr _ => "object"
  | .vObj _ => "object"
  | .vOther _ => "function"

/-- Model of JavaScript falsiness: null, undefined, the empty string, zero
and false are falsy; every object, array and function is truthy. -/
def jsFalsy : JsonValue → Bool
  | .vNull => true
  | .vStr s => s.isEmpty
  | .vNum q => q = 0
  | .vBool b => !b
  | .vArr _ => false
  | .vObj _ => false
  | .vOther _ => false

/-- Model of Object.entries: a plain object yields its entries in order; an
array yields its elements under their decimal index keys; primitives yield
no entries (the source only applies it to values passing a typeof object
guard). -/
def jsObjectEntries : JsonValue → List (String × JsonValue)
  | .vObj entries => entries
  | .vArr items => items.enum.map fun p => (toString p.1, p.2)
  | _ => []

/-- The Visual tab content of the asset viewer (renderAssetContent,
SmartAssetViewer.tsx lines 39-68): either the fixed no-data placeholder or
the list of deliverable fields, each holding the humanized key label and the
SmartValueRenderer output for the value. -/
inductive AssetContentView where
  | noData
  | deliverableFields (fields : List (String × Render))
deriving Repr, BEq

/-- renderAssetContent (SmartAssetViewer.tsx lines 39-68): the guard is the
source condition not-data or typeof data is not object; otherwise the
Object.entries of the data are rendered, each key humanized and each value
passed to SmartValueRenderer. -/
def renderAssetContent (data : JsonValue) : AssetContentView :=
  if jsFalsy data || jsTypeof data ≠ "object" then .noData
  else .deliverableFields
    ((jsObjectEntries data).map fun kv => (humanizeKey kv.1, render kv.2))

/-- A run of n space characters, the indentation unit of
JSON.stringify with an indent argument of 2. -/
def indentSpaces (n : Nat) : String :=
  String.mk (List.replicate n ' ')

/-- JSON string escaping for one character: the double quote, the backslash
and the common control characters get their two-character escapes; other
characters are kept (the unicode control-character escape is abstracted
away, no claim exercises it). -/
def jsonEscapeChar (c : Char) : String :=
  if c = '"' then "\\\""
  else if c = '\\' then "\\\\"
  else if c = '\n' then "\\n"
  else if c = '\t' then "\\t"
  else if c = '\r' then "\\r"
  else String.mk [c]

/-- A JSON-quoted string: the escaped characters wrapped in double
quotes. -/
def jsonQuote (s : String) : String :=
  "\"" ++ String.join (s.data.map jsonEscapeChar) ++ "\""

mutual

/-- Model of JSON.stringify(v, null, 2) at a given current indentation:
null for null and undefined, quoted strings, literal numbers and booleans,
none (the JS undefined result) for functions and other non-serializable
values, bracketed multi-line arrays and objects indented by two further
spaces per level, with non-serializable array elements printed as null and
non-serializable object entries skipped. -/
def jsonStringifyAt : Nat → JsonValue → Option String
  | _, .vNull => some "null"
  | _, .vStr s => some (jsonQuote s)
  | _, .vNum q => some (jsNumToString q)
  | _, .vBool b => some (jsBoolToString b)
  | _, .vOther _ => none
  | ind, .vArr items =>
      if items.isEmpty then some "[]"
      else
        some ("[\n"
          ++ String.intercalate ",\n" (jsonStringifyArrItems (ind + 2) items)
          ++ "\n" ++ indentSpaces ind ++ "]")
  | ind, .vObj entries =>
      if entries.isEmpty then some "\x7b\x7d"
      else
        let rendered := jsonStringifyObjEntries (ind + 2) entries
        if rendered.isEmpty then some "\x7b\x7d"
        else
          some ("\x7b\n" ++ String.intercalate ",\n" rendered
            ++ "\n" ++ indentSpaces ind ++ "\x7d")
termination_by ind v => sizeOf v

/-- The serialized array elements at one indentation level, a
non-serializable element printed as null. -/
def jsonStringifyArrItems (ind : Nat) : List JsonValue → List String
  | [] => []
  | a :: as =>
      (indentSpaces ind ++ (jsonStringifyAt ind a).getD "null")
        :: jsonStringifyArrItems ind as
termination_by l => sizeOf l

/-- The serialized object entries at one indentation level, a
non-serializable entry skipped. -/
def jsonStringifyObjEntries (ind : Nat) : List (String × JsonValue) → List String
  | [] => []
  | (k, v) :: kvs =>
      match jsonStringifyAt ind v with
      | some r => (indentSpaces ind ++ jsonQuote k ++ ": " ++ r)
          :: jsonStringifyObjEntries ind kvs
      | none => jsonStringifyObjEntries ind kvs
termination_by l => sizeOf l

end

/-- Model of the Raw Data tab body (SmartAssetViewer.tsx lines 147-154):
JSON.stringify(asset.asset_data, null, 2). -/
def jsonStringify (v : JsonValue) : Option String :=
  jsonStringifyAt 0 v

/-- The three tab keys of the asset viewer (SmartAssetViewer.tsx line
20). -/
inductive ActiveView where
  | visual
  | usage
  | data
deriving Repr, BEq, DecidableEq

/-- The fixed usage instructions list (SmartAssetViewer.tsx lines
72-78). -/
def usageInstructions : List String :=
  ["Review the deliverable content in the Visual View tab",
   "Adapt the content to fit your specific business context",
   "Implement the recommendations systematically",
   "Download the asset for integration with your existing tools",
   "Monitor results and request refinements if needed"]

/-- The body rendered for one active tab of the asset viewer. -/
inductive AssetTabBody where
  | visualBody (content : AssetContentView)
  | usageBody (instructions : List String)
  | rawBody (jsonText : Option String)
deriving Repr, BEq

/-- The content area dispatch of SmartAssetViewer (lines 144-155): the
Visual tab shows renderAssetContent, the Usage tab the fixed instructions,
the Raw Data tab the pretty-printed JSON of asset_data. -/
def assetTabBody (assetData : JsonValue) : ActiveView → AssetTabBody
  | .visual => .visualBody (renderAssetContent assetData)
  | .usage => .usageBody usageInstructions
  | .data => .rawBody (jsonStringify assetData)

/-- The name-cleaning record of getAssetTypeInfo (SmartAssetViewer.tsx
lines 22-34): underscores in the asset name become spaces and each word is
capitalized; type tag, icon and description are fixed. -/
structure AssetTypeInfo where
  typeTag : String
  icon : String
  title : String
  description : String
deriving Repr, BEq

/-- getAssetTypeInfo (SmartAssetViewer.tsx lines 22-34).  The assetData
argument of the source is unused by its body and omitted here. -/
def getAssetTypeInfo (assetName : String) : AssetTypeInfo :=
  { typeTag := "universal"
    icon := "📋"
    title := capitalizeWordStarts (underscoresToSpaces assetName)
    description := "Business-ready deliverable" }

/-- A JavaScript Date value: either a valid moment, carrying an encoded
date key, or the Invalid Date sentinel.  Constructing a Date from an
unparsable string yields the sentinel; the constructor does not throw. -/
inductive JSDate where
  | valid (encoded : Nat)
  | invalid
deriving Repr, BEq, DecidableEq

/-- Numeric value of a decimal digit character. -/
def digitVal (c : Char) : Nat :=
  c.toNat - '0'.toNat

/-- Model of JavaScript date-string parsing (the Date constructor on a
string), restricted to ISO-like date strings: four digits, a hyphen, two
digits, a hyphen, two digits, optionally followed by a time part introduced
by the character T.  The encoded result packs year, month and day into one
number; month and day range checks and the time-of-day are abstracted away
(no claim inspects the encoded value).  Every string outside this shape,
such as not-a-date, fails to parse. -/
def jsDateParse (s : String) : Option Nat :=
  match s.data with
  | y1 :: y2 :: y3 :: y4 :: '-' :: m1 :: m2 :: '-' :: d1 :: d2 :: rest =>
      if (y1.isDigit && y2.isDigit && y3.isDigit && y4.isDigit
          && m1.isDigit && m2.isDigit && d1.isDigit && d2.isDigit)
          && (rest.isEmpty || rest.headD ' ' = 'T') then
        some ((((digitVal y1 * 10 + digitVal y2) * 10 + digitVal y3) * 10 + digitVal y4) * 10000
          + (digitVal m1 * 10 + digitVal m2) * 100 + (digitVal d1 * 10 + digitVal d2))
      else none
  | _ => none

/-- Model of new Date(dateString): a parsable string yields a valid Date, an
unparsable one yields the Invalid Date sentinel.  No exception is thrown in
either case. -/
def jsNewDate (s : String) : JSDate :=
  match jsDateParse s with
  | some n => .valid n
  | none => .invalid

/-- Short month names of the en-US locale. -/
def monthShortName : Nat → String
  | 1 => "Jan" | 2 => "Feb" | 3 => "Mar" | 4 => "Apr"
  | 5 => "May" | 6 => "Jun" | 7 => "Jul" | 8 => "Aug"
  | 9 => "Sep" | 10 => "Oct" | 11 => "Nov" | 12 => "Dec"
  | _ => "???"

/-- Model of Date.prototype.toLocaleDateString with the en-US locale and the
short month, numeric day, two-digit hour and minute options.  On the Invalid
Date sentinel it returns the string Invalid Date; it does not throw.  On a
valid date it formats month and day from the encoded key (the time-of-day,
absent from the encoding, is abstracted; no claim inspects the output for a
valid date). -/
def toLocaleDateStringEnUS : JSDate → String
  | .invalid => "Invalid Date"
  | .valid n => monthShortName (n / 100 % 100) ++ " " ++ toString (n % 100)

/-- The try-block body of formatDate (knowledge panel source, lines 38-49):
construct a Date from the string and format it.  Neither step can throw
(unparsable strings produce the Invalid Date sentinel, and formatting the
sentinel produces the string Invalid Date), so the body always returns ok:
the catch branch of the source is unreachable. -/
def formatDateTryBody (dateString : String) : Except Unit String :=
  .ok (toLocaleDateStringEnUS (jsNewDate dateString))

/-- formatDate (knowledge panel source, lines 38-49): the try-catch wrapper
mapping any thrown exception to the Unknown sentinel. -/
def formatDate (dateString : String) : String :=
  match formatDateTryBody dateString with
  | .ok r => r
  | .error _ => "Unknown"

/-- getConfidenceColor (knowledge panel source, lines 62-66 and the
identical copies at lines 274-278 and 380-384): at least 0.8 is green, at
least 0.6 is yellow, anything below is red.  Confidence values are modelled
over the rationals; the three comparison constants are exactly representable
and compare identically in binary floating point. -/
def getConfidenceColor (confidence : Rat) : String :=
  if confidence ≥ 0.8 then "text-green-600 bg-green-100"
  else if confidence ≥ 0.6 then "text-yellow-600 bg-yellow-100"
  else "text-red-600 bg-red-100"

/-- The discrete tier selected by getConfidenceColor, read off the same
guard structure: 2 for the high tier, 1 for the medium tier, 0 for the low
tier. -/
def confidenceTier (confidence : Rat) : Nat :=
  if confidence ≥ 0.8 then 2
  else if confidence ≥ 0.6 then 1
  else 0

/-- The fixed color pairing of each tier. -/
def tierColor (tier : Nat) : String :=
  if tier = 2 then "text-green-600 bg-green-100"
  else if tier = 1 then "text-yellow-600 bg-yellow-100"
  else "text-red-600 bg-red-100"

/-- The five section keys of the knowledge panel (knowledge panel source,
line 33). -/
inductive KSection where
  | insights
  | practices
  | learnings
  | summary
  | manage
deriving Repr, BEq, DecidableEq

/-- The component-local state of KnowledgeInsightsArtifact (lines 33-34):
the active section tab and the management-mode flag. -/
structure KState where
  activeSection : KSection
  managementMode : Bool
deriving Repr, BEq, DecidableEq

/-- The initial state on mount: insights tab, management mode off. -/
def initialKState : KState :=
  { activeSection := .insights, managementMode := false }

/-- The management-mode toggle (line 88): setManagementMode of the negated
current flag.  The active-section state is untouched. -/
def toggleManagementMode (st : KState) : KState :=
  { st with managementMode := !st.managementMode }

/-- A section-tab click (lines 121, 128, 135, 142): setActiveSection of the
clicked key.  The management-mode flag is untouched. -/
def setActiveSection (sec : KSection) (st : KState) : KState :=
  { st with activeSection := sec }

/-- The body rendered by the knowledge panel: the management sub-tree
(KnowledgeInsightManager with the workspace and user ids) or the tabbed view
of the active section. -/
inductive KnowledgeBody where
  | managementView (workspaceId : String) (currentUserId : String)
  | tabbedView (active : KSection)
deriving Repr, BEq, DecidableEq

/-- The conditional at lines 107-179 of the knowledge panel source: when the
management-mode flag is set the management sub-tree replaces the tab
navigation and section content entirely; otherwise the tabbed view of the
active section renders. -/
def knowledgeBody (workspaceId currentUserId : String) (st : KState) : KnowledgeBody :=
  if st.managementMode then .managementView workspaceId currentUserId
  else .tabbedView st.activeSection

/-- formatPersonalityTraits (ProjectTeamSection.tsx lines 68-71): a missing
or empty trait list yields the fixed placeholder; otherwise each trait has
its underscores replaced with spaces, then its hyphens replaced with spaces
(two successive replace passes, as in the source), and the results are
joined with a comma and a space. -/
def formatPersonalityTraits (traits : Option (List String)) : String :=
  match traits with
  | none => "Non specificati"
  | some [] => "Non specificati"
  | some ts =>
      String.intercalate ", "
        (ts.map fun tr => jsReplaceAll '-' ' ' (jsReplaceAll '_' ' ' tr))

/-- The humanization the specification describes for free-text labels,
written from the words of the spec for comparison with the source helpers:
every underscore and every hyphen becomes a space, and the first letter of
each word is capitalized. -/
def specHumanize (s : String) : String :=
  capitalizeWordStarts
    (String.mk (s.data.map fun c => if c = '_' ∨ c = '-' then ' ' else c))

/-- The per-kind rendering contract of the Structured-Value Renderer as the
specification states it (spec section 4.1): null and undefined get the empty
placeholder; a string of at most 200 characters renders verbatim, a longer
one as its 200-character head with the total count; numbers and booleans
render as their literal string forms; an empty list as the empty-list
marker, a non-empty list as its count, the renderings of its first five
items and, beyond five, the hidden-item count; an empty mapping as the
empty-object marker, a non-empty mapping as its first three entries under
humanized key labels and, beyond three, the hidden-property count; any other
value as its literal string conversion.  The relation is recursive exactly
where the spec recurses: on the shown items and entries. -/
inductive SpecRender : JsonValue → Render → Prop where
  | nullCase : SpecRender .vNull .nullMarker
  | strShort (s : String) :
      s.length ≤ 200 → SpecRender (.vStr s) (.text s)
  | strLong (s : String) :
      200 < s.length →
      SpecRender (.vStr s) (.truncatedText (jsSubstring0 200 s) s.length)
  | numCase (q : Rat) : SpecRender (.vNum q) (.primitive (jsNumToString q))
  | boolCase (b : Bool) : SpecRender (.vBool b) (.primitive (jsBoolToString b))
  | arrEmpty : SpecRender (.vArr []) .emptyList
  | arrCase (items : List JsonValue) (shown : List Render) :
      items ≠ [] →
      shown.length = (items.take 5).length →
      (∀ (i : Nat) (v : JsonValue) (r : Render),
        (items.take 5)[i]? = some v → shown[i]? = some r → SpecRender v r) →
      SpecRender (.vArr items)
        (.listRender items.length (tagPositions shown)
          (if 5 < items.length then some (items.length - 5) else none))
  | objEmpty : SpecRender (.vObj []) .emptyObject
  | objCase (entries : List (String × JsonValue)) (shown : List (String × Render)) :
      entries ≠ [] →
      shown.length = (entries.take 3).length →
      (∀ (i : Nat) (kv : String × JsonValue) (p : String × Render),
        (entries.take 3)[i]? = some kv → shown[i]? = some p →
        p.1 = humanizeKey kv.1) →
      (∀ (i : Nat) (kv : String × JsonValue) (p : String × Render),
        (entries.take 3)[i]? = some kv → shown[i]? = some p →
        SpecRender kv.2 p.2) →
      SpecRender (.vObj entries)
        (.objRender shown
          (if 3 < entries.length then some (entries.length - 3) else none))
  | otherCase (srepr : String) : SpecRender (.vOther srepr) (.fallback srepr)

/-- Every value is rendered, and the rendering satisfies the per-kind
contract; proved by strong induction on the size of the value. -/
theorem render_meets_spec_aux (n : Nat) :
    ∀ v : JsonValue, sizeOf v ≤ n → SpecRender v (render v) := by
  induction n with
  | zero =>
      intro v h
      exfalso
      cases v <;> simp_arith at h
  | succ n ih =>
      intro v h
      cases v with
      | vNull => rw [render]; exact .nullCase
      | vStr s =>
          rw [render]
          by_cases hs : 200 < s.length
          · simpa [hs] using SpecRender.strLong s hs
          · simpa [hs] using SpecRender.strShort s (by omega)
      | vNum q => rw [render]; exact .numCase q
      | vBool b => rw [render]; exact .boolCase b
      | vOther srepr => rw [render]; exact .otherCase srepr
      | vArr items =>
          rw [render_arr]
          rcases eq_or_ne items [] with rfl | hne
          · simpa using SpecRender.arrEmpty
          · have hlen : ¬ items.length = 0 := by
              simpa [List.length_eq_zero] using hne
            simp only [hlen, if_neg]
            refine SpecRender.arrCase items ((items.take 5).map render) hne
              (by simp) ?_
            intro i v r hv hr
            rw [List.getElem?_map, hv, Option.map_some'] at hr
            cases hr
            have hmem : v ∈ items :=
              List.mem_of_mem_take (List.getElem?_mem hv)
            have hsz := List.sizeOf_lt_of_mem hmem
            have hva : sizeOf (JsonValue.vArr items) = 1 + sizeOf items := by
              simp
            exact ih v (by omega)
      | vObj entries =>
          rw [render_obj]
          rcases eq_or_ne entries [] with rfl | hne
          · simpa using SpecRender.objEmpty
          · have hlen : ¬ entries.length = 0 := by
              simpa [List.length_eq_zero] using hne
            simp only [hlen, if_neg]
            refine SpecRender.objCase entries
              ((entries.take 3).map fun kv => (humanizeKey kv.1, render kv.2)) hne
              (by simp) ?_ ?_
            · intro i kv p hkv hp
              rw [List.getElem?_map, hkv, Option.map_some'] at hp
              cases hp
              rfl
            intro i kv p hkv hp
            rw [List.getElem?_map, hkv, Option.map_some'] at hp
            cases hp
            have hmem : kv ∈ entries :=
              List.mem_of_mem_take (List.getElem?_mem hkv)
            have hsz := List.sizeOf_lt_of_mem hmem
            have hkv2 : sizeOf kv.2 < sizeOf kv := by
              cases kv
              simp_arith
            have hvo : sizeOf (JsonValue.vObj entries) = 1 + sizeOf entries := by
              simp
            exact ih kv.2 (by omega)

/-- C1: for every input value (null or undefined, string, number, boolean,
array, keyed object, or any other value) SmartValueRenderer produces a
rendering without throwing: render is a total function, every kind of input
takes its defined branch of the per-kind contract SpecRender, and any value
not matched by an earlier branch falls through to its literal string
conversion (the otherCase branch). -/
theorem smartValueRenderer_total (v : JsonValue) : SpecRender v (render v) :=
  render_meets_spec_aux (sizeOf v) v le_rfl

/-- C2: a string of at most 200 characters renders verbatim; a longer one
renders as its 200-character head paired with the total character count (the
source presents the head followed by the ellipsis marker and the count
note).  The head is exactly the first 200 characters: its character list is
the 200-prefix of the character list of s, it has length 200, and appending
the dropped tail recovers s. -/
theorem string_preview (s : String) :
    (s.length ≤ 200 → render (.vStr s) = .text s) ∧
    (200 < s.length →
      render (.vStr s) = .truncatedText (jsSubstring0 200 s) s.length ∧
      (jsSubstring0 200 s).data = s.data.take 200 ∧
      (jsSubstring0 200 s).length = 200 ∧
      (jsSubstring0 200 s).data ++ s.data.drop 200 = s.data) := by
  have hlen : s.length = s.data.length := rfl
  constructor
  · intro h
    rw [render]
    simp [Nat.not_lt.mpr h]
  · intro h
    refine ⟨by rw [render]; simp [h], rfl, ?_, ?_⟩
    · have h2 : (jsSubstring0 200 s).length = (s.data.take 200).length := rfl
      rw [h2, List.length_take]
      omega
    · exact List.take_append_drop 200 s.data

/-- A 201-character string used to exercise the truncation branch. -/
def longStringA : String :=
  String.mk (List.replicate 201 'a')

/-- Witness for string_preview: the short branch at the two-character string
hi and the truncation branch at a 201-character string. -/
theorem string_preview_witness :
    ("hi".length ≤ 200 ∧ render (.vStr "hi") = .text "hi") ∧
    (200 < longStringA.length ∧
      render (.vStr longStringA) =
        .truncatedText (jsSubstring0 200 longStringA) longStringA.length) :=
  ⟨⟨by decide, (string_preview "hi").1 (by decide)⟩,
   ⟨by decide, ((string_preview longStringA).2 (by decide)).1⟩⟩

/-- C3: the empty list renders as the empty-list marker; a non-empty list
renders its item count and exactly its first five items in original order,
each tagged with its 1-based position, and when more than five items exist a
marker carrying the count of the remaining items; items beyond the fifth do
not appear in the output.  The third conjunct makes the tagging explicit:
the i-th shown entry is the pair of i plus one and the rendering of the i-th
list item; the fourth conjunct notes that for lists of at most five items
the shown items are all of them. -/
theorem list_preview (L : List JsonValue) :
    (L = [] → render (.vArr L) = .emptyList) ∧
    (L ≠ [] →
      render (.vArr L) =
        .listRender L.length (tagPositions ((L.take 5).map render))
          (if 5 < L.length then some (L.length - 5) else none)) ∧
    (∀ i : Nat, (tagPositions ((L.take 5).map render))[i]? =
      (L.take 5)[i]?.map fun v => (i + 1, render v)) ∧
    (L.length ≤ 5 → L.take 5 = L) := by
  refine ⟨?_, ?_, ?_, ?_⟩
  · rintro rfl
    rw [render_arr]
    simp
  · intro h
    rw [render_arr]
    have hlen : ¬ L.length = 0 := by simpa [List.length_eq_zero] using h
    simp [hlen]
  · intro i
    simp only [tagPositions, List.enum_eq_enumFrom, List.getElem?_map,
      List.getElem?_enumFrom]
    cases (L.take 5)[i]? <;> simp
  · exact fun h => List.take_of_length_le h

/-- A six-element list exercising the hidden-items marker. -/
def sampleList6 : List JsonValue :=
  [.vStr "a", .vStr "b", .vStr "c", .vStr "d", .vStr "e", .vStr "f"]

/-- Witness for list_preview: the empty list, a one-element list fully
evaluated, and the six-element list showing the hidden-item marker. -/
theorem list_preview_witness :
    render (.vArr []) = .emptyList ∧
    render (.vArr [.vStr "x"]) = .listRender 1 [(1, .text "x")] none ∧
    (sampleList6 ≠ [] ∧
      render (.vArr sampleList6) =
        .listRender 6 (tagPositions ((sampleList6.take 5).map render)) (some 1)) := by
  refine ⟨(list_preview []).1 rfl, ?_, by simp [sampleList6], ?_⟩
  · have h := (list_preview [.vStr "x"]).2.1 (by simp)
    rw [h]
    have hx : render (.vStr "x") = .text "x" := by
      rw [render, if_neg (by decide)]
    simp [tagPositions, hx, List.enum_eq_enumFrom]
  · have h := (list_preview sampleList6).2.1 (by simp [sampleList6])
    rw [h]
    norm_num [sampleList6]

/-- C4: the empty mapping renders as the empty-object marker; a non-empty
mapping renders exactly its first three entries, each under its humanized
key label (underscores become spaces and the first letter of each word is
capitalized), and when more than three entries exist a marker carrying the
count of the remaining properties.  The third conjunct makes the shown
entries explicit pointwise; the fourth notes that for mappings of at most
three entries the shown entries are all of them; the last records the
humanization pipeline applied to each key label. -/
theorem object_preview (M : List (String × JsonValue)) :
    (M = [] → render (.vObj M) = .emptyObject) ∧
    (M ≠ [] →
      render (.vObj M) =
        .objRender ((M.take 3).map fun kv => (humanizeKey kv.1, render kv.2))
          (if 3 < M.length then some (M.length - 3) else none)) ∧
    (∀ i : Nat, ((M.take 3).map fun kv => (humanizeKey kv.1, render kv.2))[i]? =
      (M.take 3)[i]?.map fun kv => (humanizeKey kv.1, render kv.2)) ∧
    (M.length ≤ 3 → M.take 3 = M) ∧
    (∀ k : String, humanizeKey k = capitalizeWordStarts (underscoresToSpaces k)) := by
  refine ⟨?_, ?_, ?_, ?_, fun _ => rfl⟩
  · rintro rfl
    rw [render_obj]
    simp
  · intro h
    rw [render_obj]
    have hlen : ¬ M.length = 0 := by simpa [List.length_eq_zero] using h
    simp [hlen]
  · intro i
    exact List.getElem?_map _ _ _
  · exact fun h => List.take_of_length_le h

/-- A four-entry mapping exercising the hidden-properties marker. -/
def sampleObj4 : List (String × JsonValue) :=
  [("first_name", .vStr "a"), ("last_name", .vStr "b"),
   ("zip_code", .vStr "c"), ("city", .vStr "d")]

/-- Witness for object_preview: the empty mapping, a one-entry mapping fully
evaluated including the humanized key label, and the four-entry mapping
showing the hidden-property marker. -/
theorem object_preview_witness :
    render (.vObj []) = .emptyObject ∧
    render (.vObj [("executive_summary", .vStr "ok")]) =
      .objRender [("Executive Summary", .text "ok")] none ∧
    (sampleObj4 ≠ [] ∧
      render (.vObj sampleObj4) =
        .objRender ((sampleObj4.take 3).map fun kv => (humanizeKey kv.1, render kv.2))
          (some 1)) := by
  refine ⟨(object_preview []).1 rfl, ?_, by simp [sampleObj4], ?_⟩
  · have h := (object_preview [("executive_summary", .vStr "ok")]).2.1 (by simp)
    rw [h]
    have hx : render (.vStr "ok") = .text "ok" := by
      rw [render, if_neg (by decide)]
    have hk : humanizeKey "executive_summary" = "Executive Summary" := by decide
    simp [hx, hk]
  · have h := (object_preview sampleObj4).2.1 (by simp [sampleObj4])
    rw [h]
    norm_num [sampleObj4]

/-- C5: the claim states that the date-formatting helper returns the fixed
Unknown sentinel on an unparsable date string.  The code does not: the
JavaScript Date constructor on an unparsable string yields the Invalid Date
sentinel without throwing, and toLocaleDateString renders that sentinel as
the string Invalid Date, so the try-catch of the source never reaches its
catch branch and the user sees Invalid Date, not Unknown.  The last conjunct
records that the try body returns ok on every input, making the catch
branch unreachable. -/
theorem formatDate_invalid_renders_invalid_date :
    formatDate "not-a-date" = "Invalid Date" ∧
    formatDate "not-a-date" ≠ "Unknown" ∧
    (∀ s : String, formatDateTryBody s = .ok (toLocaleDateStringEnUS (jsNewDate s))) :=
  ⟨rfl, by decide, fun _ => rfl⟩

/-- C6: the confidence-to-color mapping is boundary-inclusive and monotonic:
confidence at least 0.8 gives the fixed green pairing, at least 0.6 but
below 0.8 the fixed yellow pairing, below 0.6 the fixed red pairing; the
tier is monotone in the confidence value, and the color is a fixed function
of the tier alone. -/
theorem confidence_color_tiers (c c2 : Rat) :
    ((0.8 : Rat) ≤ c → getConfidenceColor c = "text-green-600 bg-green-100") ∧
    ((0.6 : Rat) ≤ c → c < 0.8 → getConfidenceColor c = "text-yellow-600 bg-yellow-100") ∧
    (c < (0.6 : Rat) → getConfidenceColor c = "text-red-600 bg-red-100") ∧
    (c ≤ c2 → confidenceTier c ≤ confidenceTier c2) ∧
    getConfidenceColor c = tierColor (confidenceTier c) := by
  refine ⟨?_, ?_, ?_, ?_, ?_⟩
  · intro h
    rw [getConfidenceColor, if_pos h]
  · intro h1 h2
    rw [getConfidenceColor, if_neg (by exact fun hc => absurd hc (not_le.mpr h2)),
      if_pos h1]
  · intro h
    rw [getConfidenceColor,
      if_neg (by exact fun hc => absurd hc (not_le.mpr (h.trans (by norm_num)))),
      if_neg (by exact fun hc => absurd hc (not_le.mpr h))]
  · intro h
    rw [confidenceTier, confidenceTier]
    split_ifs <;> first | omega | (exfalso; linarith)
  · rw [getConfidenceColor, confidenceTier, tierColor]
    split_ifs <;> simp_all

/-- Witness for confidence_color_tiers at the boundary values 0.8, 0.6 and
0.59999 of the claim. -/
theorem confidence_color_tiers_witness :
    getConfidenceColor 0.8 = "text-green-600 bg-green-100" ∧
    getConfidenceColor 0.6 = "text-yellow-600 bg-yellow-100" ∧
    getConfidenceColor 0.59999 = "text-red-600 bg-red-100" ∧
    confidenceTier 0.59999 ≤ confidenceTier 0.8 :=
  ⟨(confidence_color_tiers 0.8 0.8).1 (by norm_num),
   (confidence_color_tiers 0.6 0.6).2.1 (by norm_num) (by norm_num),
   (confidence_color_tiers 0.59999 0.59999).2.2.1 (by norm_num),
   (confidence_color_tiers 0.59999 0.8).2.2.2.1 (by norm_num)⟩

/-- C7: the management-mode toggle of the knowledge panel is a pure boolean
complement that leaves the active-section state untouched; with the mode on,
the rendered body is the management sub-tree regardless of the active
section, and toggling twice restores the original state, so the previously
selected tab is preserved and shown again. -/
theorem management_mode_toggle (st : KState) (wsId uid : String) :
    (toggleManagementMode st).managementMode = !st.managementMode ∧
    (toggleManagementMode st).activeSection = st.activeSection ∧
    toggleManagementMode (toggleManagementMode st) = st ∧
    knowledgeBody wsId uid (toggleManagementMode (toggleManagementMode st)) =
      knowledgeBody wsId uid st ∧
    (st.managementMode = false →
      knowledgeBody wsId uid st = .tabbedView st.activeSection ∧
      knowledgeBody wsId uid (toggleManagementMode st) = .managementView wsId uid ∧
      knowledgeBody wsId uid (toggleManagementMode (toggleManagementMode st)) =
        .tabbedView st.activeSection) := by
  have hdouble : toggleManagementMode (toggleManagementMode st) = st := by
    cases st
    simp [toggleManagementMode]
  refine ⟨rfl, rfl, hdouble, by rw [hdouble], ?_⟩
  intro h
  refine ⟨?_, ?_, ?_⟩ <;>
    simp [knowledgeBody, toggleManagementMode, h]

/-- Witness for management_mode_toggle at the initial state of the panel
(insights tab, management mode off). -/
theorem management_mode_toggle_witness :
    initialKState.managementMode = false ∧
    knowledgeBody "ws" "user" initialKState = .tabbedView .insights ∧
    knowledgeBody "ws" "user" (toggleManagementMode initialKState) =
      .managementView "ws" "user" ∧
    knowledgeBody "ws" "user" (toggleManagementMode (toggleManagementMode initialKState)) =
      .tabbedView .insights :=
  ⟨rfl,
   ((management_mode_toggle initialKState "ws" "user").2.2.2.2 rfl).1,
   ((management_mode_toggle initialKState "ws" "user").2.2.2.2 rfl).2.1,
   ((management_mode_toggle initialKState "ws" "user").2.2.2.2 rfl).2.2⟩

/-- The asset data of the C8 scenario: one key, executive_summary, mapped to
the string Short text. -/
def c8AssetData : JsonValue :=
  .vObj [("executive_summary", .vStr "Short text")]

/-- C8: on the scenario input, the Visual tab shows exactly one field,
labeled Executive Summary, holding the verbatim string Short text, and the
Raw Data tab shows exactly the two-space pretty-printed JSON serialization
of the input. -/
theorem asset_viewer_scenario :
    assetTabBody c8AssetData .visual =
      .visualBody (.deliverableFields [("Executive Summary", .text "Short text")]) ∧
    assetTabBody c8AssetData .data =
      .rawBody (some "\x7b\n  \"executive_summary\": \"Short text\"\n\x7d") := by
  constructor
  · have hx : render (.vStr "Short text") = .text "Short text" := by
      rw [render, if_neg (by decide)]
    have hk : humanizeKey "executive_summary" = "Executive Summary" := by decide
    simp [assetTabBody, renderAssetContent, c8AssetData, jsFalsy, jsTypeof,
      jsObjectEntries, hx, hk]
  · have hs : jsonStringifyAt 2 (.vStr "Short text") = some "\"Short text\"" := by
      rw [jsonStringifyAt]
      decide
    simp [assetTabBody, jsonStringify, c8AssetData, jsonStringifyAt,
      jsonStringifyObjEntries, hs, indentSpaces, jsonQuote, jsonEscapeChar]
    decide

/-- The two successive single-character replace passes of the trait helper
compose into one pass sending both underscore and hyphen to a space. -/
theorem replaceAll_underscore_hyphen (tr : String) :
    jsReplaceAll '-' ' ' (jsReplaceAll '_' ' ' tr) =
      String.mk (tr.data.map fun c => if c = '_' ∨ c = '-' then ' ' else c) := by
  show String.mk ((tr.data.map _).map _) = _
  rw [List.map_map]
  refine congrArg String.mk (List.map_congr_left fun c _ => ?_)
  by_cases h1 : c = '_' <;> by_cases h2 : c = '-' <;> simp [h1, h2]

/-- C9 counterexample: at the input data-driven, the personality-trait
helper replaces the hyphen but applies no capitalization, and the asset-name
cleaner capitalizes but keeps the hyphen, so neither output is the humanized
form the claim describes (every underscore and hyphen replaced with a space
and each word capitalized). -/
theorem humanize_helpers_counterexample :
    formatPersonalityTraits (some ["data-driven"]) = "data driven" ∧
    (getAssetTypeInfo "data-driven").title = "Data-Driven" ∧
    specHumanize "data-driven" = "Data Driven" ∧
    formatPersonalityTraits (some ["data-driven"]) ≠ specHumanize "data-driven" ∧
    (getAssetTypeInfo "data-driven").title ≠ specHumanize "data-driven" := by
  refine ⟨?_, ?_, ?_, ?_, ?_⟩ <;> decide

/-- C9 amended: the personality-trait helper replaces every underscore and
every hyphen of each trait with a space, applies no capitalization, and
joins the traits with a comma and a space (with a fixed placeholder for a
missing or empty list); the asset-name cleaner of getAssetTypeInfo replaces
every underscore with a space and capitalizes the first letter of each word,
leaving hyphens in place (the underscore-free property and the preserved
hyphen count are recorded in the last two conjuncts). -/
theorem humanize_helpers_amended (ts : List String) (name : String) :
    (ts ≠ [] → formatPersonalityTraits (some ts) =
      String.intercalate ", "
        (ts.map fun tr =>
          String.mk (tr.data.map fun c => if c = '_' ∨ c = '-' then ' ' else c))) ∧
    formatPersonalityTraits none = "Non specificati" ∧
    formatPersonalityTraits (some []) = "Non specificati" ∧
    (getAssetTypeInfo name).title = capitalizeWordStarts (underscoresToSpaces name) ∧
    (∀ c ∈ (underscoresToSpaces name).data, c ≠ '_') ∧
    (underscoresToSpaces name).data.count '-' = name.data.count '-' := by
  refine ⟨?_, rfl, rfl, rfl, ?_, ?_⟩
  · intro h
    cases ts with
    | nil => exact absurd rfl h
    | cons a as =>
        show String.intercalate ", " ((a :: as).map fun tr =>
          jsReplaceAll '-' ' ' (jsReplaceAll '_' ' ' tr)) = _
        congr 1
        exact List.map_congr_left fun tr _ => replaceAll_underscore_hyphen tr
  · intro c hc
    rcases List.mem_map.mp hc with ⟨c0, _, rfl⟩
    by_cases h : c0 = '_' <;> simp [h]
  · show (name.data.map _).count '-' = _
    induction name.data with
    | nil => rfl
    | cons c cs ih =>
        by_cases h : c = '_' <;>
          simp [List.count_cons, ih, h]

/-- C10: the guard of renderAssetContent sends null, undefined and every
value whose JS typeof is not object (strings, numbers, booleans and other
primitives, truthy or falsy) to the fixed no-data placeholder; only values
of typeof object that are not null (plain objects and arrays) get their
entries enumerated, humanized and rendered. -/
theorem visual_tab_guard (v : JsonValue) :
    (jsTypeof v ≠ "object" → renderAssetContent v = .noData) ∧
    (v = .vNull → renderAssetContent v = .noData) ∧
    (jsTypeof v = "object" → jsFalsy v = false →
      renderAssetContent v =
        .deliverableFields
          ((jsObjectEntries v).map fun kv => (humanizeKey kv.1, render kv.2))) := by
  refine ⟨?_, ?_, ?_⟩
  · intro h
    simp [renderAssetContent, h]
  · rintro rfl
    rfl
  · intro h1 h2
    simp [renderAssetContent, h1, h2]

/-- Witness for visual_tab_guard: a plain string and null hit the
placeholder; the one-entry object of the C8 scenario is enumerated. -/
theorem visual_tab_guard_witness :
    (jsTypeof (.vStr "plain") ≠ "object" ∧
      renderAssetContent (.vStr "plain") = .noData) ∧
    renderAssetContent .vNull = .noData ∧
    (jsTypeof c8AssetData = "object" ∧ jsFalsy c8AssetData = false ∧
      renderAssetContent c8AssetData =
        .deliverableFields
          ((jsObjectEntries c8AssetData).map fun kv => (humanizeKey kv.1, render kv.2))) :=
  ⟨⟨by decide, (visual_tab_guard (.vStr "plain")).1 (by decide)⟩,
   (visual_tab_guard .vNull).2.1 rfl,
   ⟨rfl, rfl, (visual_tab_guard c8AssetData).2.2 rfl rfl⟩⟩

/-- Witness for humanize_helpers_amended at a one-trait list and a name
holding both an underscore and a hyphen. -/
theorem humanize_helpers_amended_witness :
    (["data_driven"] : List String) ≠ [] ∧
    formatPersonalityTraits (some ["data_driven"]) =
      String.intercalate ", " ((["data_driven"] : List String).map fun tr =>
        String.mk (tr.data.map fun c => if c = '_' ∨ c = '-' then ' ' else c)) ∧
    (getAssetTypeInfo "go_to-market").title =
      capitalizeWordStarts (underscoresToSpaces "go_to-market") :=
  ⟨by decide,
   (humanize_helpers_amended ["data_driven"] "go_to-market").1 (by decide),
   (humanize_helpers_amended ["data_driven"] "go_to-market").2.2.2.1⟩
